import Mathlib

/-!
Verification of the AsyncHTTP non-blocking HTTP/1.1 request engine
(`src/AsyncHTTP.h`, `src/AsyncHTTP.cpp`).

The C++ code is shallowly embedded: Arduino `String` values become
`List Char`, the per-slot state machine `AsyncHTTP::_processSlot` becomes a
pure step function driven by a per-cycle oracle (`CycleInput`) describing
what the bound byte stream reports during that pump cycle, and the two
outcome dispatchers become pure functions emitting an event list (one event
per callback invocation).  Millisecond clocks are `Nat` reduced mod 2^32 as
Arduino `millis()` arithmetic is 32-bit.
-/

-- ===========================================================================
-- Configuration constants (AsyncHTTP.h defaults)
-- ===========================================================================

def ASYNC_HTTP_MAX_REQUESTS : Nat := 4

def ASYNC_HTTP_HEADER_BUF_SIZE : Nat := 512

def ASYNC_HTTP_BODY_BUF_SIZE : Nat := 4096

def ASYNC_HTTP_DEFAULT_TIMEOUT : Nat := 10000

def ASYNC_HTTP_MAX_HEADERS : Nat := 16

def ASYNC_HTTP_ERR_POOL_FULL : Int := -1

def ASYNC_HTTP_ERR_INVALID_URL : Int := -2

def ASYNC_HTTP_ERR_CONNECT_FAIL : Int := -3

def ASYNC_HTTP_ERR_TIMEOUT : Int := -4

def ASYNC_HTTP_ERR_SEND_FAIL : Int := -5

def ASYNC_HTTP_ERR_PARSE_FAIL : Int := -6

-- ===========================================================================
-- Arduino String / C library helpers, modelled over List Char
-- ===========================================================================

/-- ASCII tolower, as used by `String::equalsIgnoreCase`. -/
def toLowerChar (c : Char) : Char :=
  if 65 ≤ c.toNat ∧ c.toNat ≤ 90 then Char.ofNat (c.toNat + 32) else c

/-- `String::equalsIgnoreCase`: equal length, chars equal after tolower. -/
def eqIgnoreCase : List Char → List Char → Bool
  | [], [] => true
  | a :: as, b :: bs => toLowerChar a == toLowerChar b && eqIgnoreCase as bs
  | _, _ => false

/-- C `isspace` set, used by `String::trim`. -/
def isSpaceChar (c : Char) : Bool :=
  c == ' ' || c == '\t' || c == '\n' || c.toNat == 11 || c.toNat == 12 || c == '\r'

/-- `String::trim`: strip leading and trailing whitespace. -/
def trimChars (l : List Char) : List Char :=
  ((l.dropWhile isSpaceChar).reverse.dropWhile isSpaceChar).reverse

/-- Accumulate leading decimal digits (helper for `atol`). -/
def decValAux : List Char → Nat → Nat
  | [], acc => acc
  | c :: rest, acc =>
    if 48 ≤ c.toNat ∧ c.toNat ≤ 57 then decValAux rest (acc * 10 + (c.toNat - 48))
    else acc

/-- `String::toInt` (Arduino `atol`): leading whitespace, optional sign,
decimal digits; yields 0 when no digits are present. -/
def atolChars (l : List Char) : Int :=
  let l := l.dropWhile isSpaceChar
  match l with
  | '-' :: rest => -(decValAux rest 0 : Int)
  | '+' :: rest => (decValAux rest 0 : Int)
  | _ => (decValAux l 0 : Int)

/-- Value of one hex digit, if any. -/
def hexDigitVal (c : Char) : Option Nat :=
  if 48 ≤ c.toNat ∧ c.toNat ≤ 57 then some (c.toNat - 48)
  else if 97 ≤ c.toNat ∧ c.toNat ≤ 102 then some (c.toNat - 87)
  else if 65 ≤ c.toNat ∧ c.toNat ≤ 70 then some (c.toNat - 55)
  else none

/-- Accumulate leading hex digits. -/
def hexValAux : List Char → Nat → Nat
  | [], acc => acc
  | c :: rest, acc =>
    match hexDigitVal c with
    | some d => hexValAux rest (acc * 16 + d)
    | none => acc

/-- `strtol(s, nullptr, 16)`: leading whitespace, optional sign, optional
`0x`/`0X` prefix, then hex digits; 0 when no digits are present. -/
def strtolHex (l : List Char) : Int :=
  let l := l.dropWhile isSpaceChar
  match l with
  | '-' :: rest => -(strtolHexMag rest : Int)
  | '+' :: rest => (strtolHexMag rest : Int)
  | _ => (strtolHexMag l : Int)
where
  strtolHexMag : List Char → Nat
    | '0' :: 'x' :: rest => hexValAux rest 0
    | '0' :: 'X' :: rest => hexValAux rest 0
    | l => hexValAux l 0

/-- `String::indexOf(char)`: first index of `c`, or -1. -/
def indexOfChar (l : List Char) (c : Char) : Int :=
  match l.findIdx? (· == c) with
  | some i => (i : Int)
  | none => -1

/-- Scan for `needle` in successive suffixes, returning its absolute index. -/
def findSubAux (needle : List Char) : List Char → Nat → Option Nat
  | [], i => if needle.isEmpty then some i else none
  | c :: rest, i =>
    if needle.isPrefixOf (c :: rest) then some i
    else findSubAux needle rest (i + 1)

/-- `String::indexOf(str, from)`: first occurrence of `needle` at index ≥
`start`, as an absolute index into `hay`. -/
def findSub (hay needle : List Char) (start : Nat) : Option Nat :=
  findSubAux needle (hay.drop start) start

/-- `String::endsWith("\r")` specialised to the header line buffer. -/
def endsWithCR (l : List Char) : Bool :=
  match l.getLast? with
  | some c => c == '\r'
  | none => false

/-- `String(n)` for a nonnegative number: decimal digits. -/
def natToChars (n : Nat) : List Char := (Nat.repr n).toList

-- ===========================================================================
-- Enums (AsyncHTTP.h)
-- ===========================================================================

inductive AsyncHTTPState where
  | idle
  | connecting
  | sending
  | receivingHeaders
  | receivingBody
  | complete
  | error
  | timeout
deriving DecidableEq

inductive AsyncHTTPMethod where
  | get
  | post
  | put
  | patch
  | del
  | head
deriving DecidableEq

-- ===========================================================================
-- AsyncHTTPResponse
-- ===========================================================================

structure AsyncHTTPResponse where
  statusCode : Int
  body : List Char
  contentLength : Int
  headers : List (List Char × List Char)
deriving DecidableEq

/-- `AsyncHTTPResponse::_addHeader`: store a pair only below capacity. -/
def AsyncHTTPResponse.addHeader (r : AsyncHTTPResponse)
    (name value : List Char) : AsyncHTTPResponse :=
  if r.headers.length < ASYNC_HTTP_MAX_HEADERS then
    { r with headers := r.headers ++ [(name, value)] }
  else r

/-- Loop body of `AsyncHTTPResponse::header`: first case-insensitive match. -/
def headerLookupAux : List (List Char × List Char) → List Char → List Char
  | [], _ => []
  | p :: rest, name =>
    if eqIgnoreCase p.1 name then p.2 else headerLookupAux rest name

/-- `AsyncHTTPResponse::header`: case-insensitive lookup, first match wins,
empty string when absent. -/
def AsyncHTTPResponse.header (r : AsyncHTTPResponse) (name : List Char) : List Char :=
  headerLookupAux r.headers name

-- ===========================================================================
-- AsyncHTTPRequest (one pool slot)
-- ===========================================================================

structure AsyncHTTPRequest where
  active : Bool
  state : AsyncHTTPState
  method : AsyncHTTPMethod
  host : List Char
  port : Nat
  path : List Char
  tls : Bool
  requestHeaders : List Char
  requestBody : List Char
  timeoutMs : Nat
  startTime : Nat
  response : AsyncHTTPResponse
  headersDone : Bool
  chunked : Bool
  remainingBytes : Int
  headerLineBuf : List Char
  hasResponseCb : Bool
  hasErrorCb : Bool
  hasClient : Bool
deriving DecidableEq

/-- The C++ member initialisers of `AsyncHTTPRequest` (client null). -/
def defaultRequest : AsyncHTTPRequest :=
  { active := false
    state := .idle
    method := .get
    host := []
    port := 80
    path := []
    tls := false
    requestHeaders := []
    requestBody := []
    timeoutMs := ASYNC_HTTP_DEFAULT_TIMEOUT
    startTime := 0
    response := { statusCode := 0, body := [], contentLength := -1, headers := [] }
    headersDone := false
    chunked := false
    remainingBytes := -1
    headerLineBuf := []
    hasResponseCb := false
    hasErrorCb := false
    hasClient := false }

/-- `AsyncHTTPRequest::reset`: clear every field except the client binding. -/
def AsyncHTTPRequest.reset (req : AsyncHTTPRequest) : AsyncHTTPRequest :=
  { defaultRequest with hasClient := req.hasClient }

-- ===========================================================================
-- Events, per-cycle stream oracle, cycle output
-- ===========================================================================

/-- One user-callback invocation. -/
inductive HTTPEvent where
  | responseEvt (r : AsyncHTTPResponse)
  | errorEvt (code : Int) (msg : String)
deriving DecidableEq

/-- What the bound byte stream reports during one pump cycle: the current
`millis()`, the result of `connected()` on entry, the result of a `connect`
attempt, the total byte count a `print` of framing plus body returns, the
bytes drained by `available()`/`read()` loops, and `connected()` once the
available bytes are exhausted. -/
structure CycleInput where
  now : Nat
  connected : Bool
  connectOk : Bool
  written : Nat
  avail : List Char
  connAfter : Bool
deriving DecidableEq

/-- Result of processing one slot for one cycle: the new slot, the callback
events fired, and the available bytes left unread in the stream. -/
structure CycleOut where
  req : AsyncHTTPRequest
  events : List HTTPEvent
  leftover : List Char
deriving DecidableEq

/-- `millis() - startTime` in 32-bit unsigned arithmetic (times are taken
within one 32-bit epoch, `start ≤ now`). -/
def elapsedMillis (now start : Nat) : Nat := (now - start) % 4294967296

-- ===========================================================================
-- Outcome dispatchers (AsyncHTTP::_finishWithError / _finishWithResponse)
-- ===========================================================================

/-- `AsyncHTTP::_finishWithError`: set state, stop the stream, fire the
error callback when registered, detach the client, clear `active`. -/
def finishWithError (req : AsyncHTTPRequest) (code : Int) (msg : String) :
    AsyncHTTPRequest × List HTTPEvent :=
  ({ req with state := .error, hasClient := false, active := false },
   if req.hasErrorCb then [.errorEvt code msg] else [])

/-- `AsyncHTTP::_finishWithResponse`: set state, stop the stream, fire the
response callback when registered, detach the client, clear `active`. -/
def finishWithResponse (req : AsyncHTTPRequest) :
    AsyncHTTPRequest × List HTTPEvent :=
  ({ req with state := .complete, hasClient := false, active := false },
   if req.hasResponseCb then [.responseEvt req.response] else [])

-- ===========================================================================
-- _stripChunkedEncoding
-- ===========================================================================

/-- Loop of `_stripChunkedEncoding`, run on fuel.  Every iteration advances
`pos` by at least 3, so `body.length + 1` units of fuel always cover the
C++ `while (pos < len)` loop. -/
def stripLoopF : Nat → List Char → Nat → List Char → List Char
  | 0, _, _, result => result
  | fuel + 1, body, pos, result =>
    if pos < body.length then
      match findSub body ['\r', '\n'] pos with
      | none => result
      | some lineEnd =>
        let sizeStr := trimChars ((body.drop pos).take (lineEnd - pos))
        let chunkSize := strtolHex sizeStr
        if chunkSize ≤ 0 then result
        else
          let dataStart := lineEnd + 2
          let dataEnd := min (dataStart + chunkSize.toNat) body.length
          stripLoopF fuel body (dataEnd + 2)
            (result ++ (body.drop dataStart).take (dataEnd - dataStart))
    else result

/-- `_stripChunkedEncoding`: rewrite an accumulated chunked body by parsing
successive `hex-size CRLF data CRLF` chunks. -/
def stripChunkedEncoding (body : List Char) : List Char :=
  stripLoopF (body.length + 1) body 0 []

-- ===========================================================================
-- Header-line parsing (STATE_RECEIVING_HEADERS body of the '\n' branch)
-- ===========================================================================

/-- Processing of one completed, CR-stripped, non-empty header line:
status line when no status code is parsed yet, otherwise `Name: Value`
with Content-Length and Transfer-Encoding special handling; a line with
no colon is silently discarded. -/
def parseHeaderLine (req : AsyncHTTPRequest) (buf : List Char) : AsyncHTTPRequest :=
  if req.response.statusCode = 0 ∧ ("HTTP/".toList).isPrefixOf buf then
    let spaceIdx := indexOfChar buf ' '
    if spaceIdx > 0 then
      { req with response :=
          { req.response with statusCode := atolChars (buf.drop (spaceIdx.toNat + 1)) } }
    else req
  else
    let colonIdx := indexOfChar buf ':'
    if colonIdx > 0 then
      let name := trimChars (buf.take colonIdx.toNat)
      let value := trimChars (buf.drop (colonIdx.toNat + 1))
      let resp := req.response.addHeader name value
      let resp :=
        if eqIgnoreCase name ("Content-Length".toList) then
          { resp with contentLength := atolChars value }
        else resp
      let remB :=
        if eqIgnoreCase name ("Content-Length".toList) then atolChars value
        else req.remainingBytes
      let chk :=
        if eqIgnoreCase name ("Transfer-Encoding".toList) &&
           eqIgnoreCase value ("chunked".toList) then true
        else req.chunked
      { req with response := resp, remainingBytes := remB, chunked := chk }
    else req

-- ===========================================================================
-- STATE_RECEIVING_HEADERS drain loop
-- ===========================================================================

/-- The `while (req.client->available())` loop of STATE_RECEIVING_HEADERS,
followed (when the bytes run out) by the connection-closed check.  An empty
header line returns early, leaving the remaining bytes in the stream. -/
def headersDrain (connAfter : Bool) : AsyncHTTPRequest → List Char → CycleOut
  | req, [] =>
    if !connAfter then
      if req.response.statusCode > 0 then
        let (r, es) := finishWithResponse { req with state := .complete }
        ⟨r, es, []⟩
      else
        let (r, es) := finishWithError req ASYNC_HTTP_ERR_PARSE_FAIL
          ("Connection closed during headers")
        ⟨r, es, []⟩
    else ⟨req, [], []⟩
  | req, c :: rest =>
    if c = '\n' then
      let buf := if endsWithCR req.headerLineBuf then req.headerLineBuf.dropLast
                 else req.headerLineBuf
      if buf.isEmpty then
        ⟨{ req with headerLineBuf := buf, headersDone := true,
                    state := .receivingBody }, [], rest⟩
      else
        headersDrain connAfter { parseHeaderLine req buf with headerLineBuf := [] } rest
    else
      headersDrain connAfter { req with headerLineBuf := req.headerLineBuf ++ [c] } rest

-- ===========================================================================
-- STATE_RECEIVING_BODY drain loop
-- ===========================================================================

/-- The `while (req.client->available())` loop of STATE_RECEIVING_BODY,
followed (when the bytes run out) by the connection-closed check. -/
def bodyDrain (connAfter : Bool) : AsyncHTTPRequest → List Char → CycleOut
  | req, [] =>
    if !connAfter then
      let req :=
        if req.chunked then
          { req with response :=
              { req.response with body := stripChunkedEncoding req.response.body } }
        else req
      let (r, es) := finishWithResponse { req with state := .complete }
      ⟨r, es, []⟩
    else ⟨req, [], []⟩
  | req, c :: rest =>
    if req.chunked then
      let req1 := { req with response :=
        { req.response with body := req.response.body ++ [c] } }
      if req1.response.body.length ≥ ASYNC_HTTP_BODY_BUF_SIZE then
        let (r, es) := finishWithResponse { req1 with state := .complete }
        ⟨r, es, rest⟩
      else bodyDrain connAfter req1 rest
    else
      let req1 := { req with response :=
        { req.response with body := req.response.body ++ [c] } }
      if req1.remainingBytes > (0 : Int) then
        let req2 := { req1 with remainingBytes := req1.remainingBytes - 1 }
        if req2.remainingBytes = (0 : Int) then
          let (r, es) := finishWithResponse { req2 with state := .complete }
          ⟨r, es, rest⟩
        else if req2.response.body.length ≥ ASYNC_HTTP_BODY_BUF_SIZE then
          let (r, es) := finishWithResponse { req2 with state := .complete }
          ⟨r, es, rest⟩
        else bodyDrain connAfter req2 rest
      else
        if req1.response.body.length ≥ ASYNC_HTTP_BODY_BUF_SIZE then
          let (r, es) := finishWithResponse { req1 with state := .complete }
          ⟨r, es, rest⟩
        else bodyDrain connAfter req1 rest

-- ===========================================================================
-- AsyncHTTP::_processSlot
-- ===========================================================================

/-- One pump-cycle step of the per-slot state machine. -/
def processSlot (req : AsyncHTTPRequest) (inp : CycleInput) : CycleOut :=
  if !req.hasClient then ⟨req, [], inp.avail⟩
  else if (req.state ≠ .complete ∧ req.state ≠ .error ∧ req.state ≠ .idle) ∧
          elapsedMillis inp.now req.startTime > req.timeoutMs then
    let (r, es) := finishWithError req ASYNC_HTTP_ERR_TIMEOUT ("Request timed out")
    ⟨r, es, inp.avail⟩
  else
    match req.state with
    | .connecting =>
      if inp.connected then ⟨{ req with state := .sending }, [], inp.avail⟩
      else if inp.connectOk then ⟨{ req with state := .sending }, [], inp.avail⟩
      else
        let (r, es) := finishWithError req ASYNC_HTTP_ERR_CONNECT_FAIL
          ("Connection failed")
        ⟨r, es, inp.avail⟩
    | .sending =>
      if inp.written = 0 then
        let (r, es) := finishWithError req ASYNC_HTTP_ERR_SEND_FAIL ("Send failed")
        ⟨r, es, inp.avail⟩
      else
        ⟨{ req with requestHeaders := [], requestBody := [],
                    state := .receivingHeaders }, [], inp.avail⟩
    | .receivingHeaders => headersDrain inp.connAfter req inp.avail
    | .receivingBody => bodyDrain inp.connAfter req inp.avail
    | _ => ⟨req, [], inp.avail⟩

/-- One `update()` visit to one slot: inactive slots are skipped. -/
def slotCycle (req : AsyncHTTPRequest) (inp : CycleInput) : CycleOut :=
  if req.active then processSlot req inp else ⟨req, [], inp.avail⟩

/-- Slot-level effect of `AsyncHTTP::abort` on a valid id: stop the stream,
destroy a pool-owned client, reset the slot, detach the client.  No
callback fires. -/
def abortStep (req : AsyncHTTPRequest) : AsyncHTTPRequest × List HTTPEvent :=
  ({ req.reset with hasClient := false }, [])

-- ===========================================================================
-- Slot lifetimes: sequences of pump cycles and aborts
-- ===========================================================================

inductive SlotOp where
  | pump (inp : CycleInput)
  | abortOp

def slotOpStep (req : AsyncHTTPRequest) : SlotOp → AsyncHTTPRequest × List HTTPEvent
  | .pump inp => let o := slotCycle req inp; (o.req, o.events)
  | .abortOp => abortStep req

/-- Run a sequence of pump cycles / aborts against one slot, collecting
every callback event fired along the way. -/
def runOps (req : AsyncHTTPRequest) : List SlotOp → AsyncHTTPRequest × List HTTPEvent
  | [] => (req, [])
  | op :: ops =>
    let (r1, e1) := slotOpStep req op
    let (r2, e2) := runOps r1 ops
    (r2, e1 ++ e2)

-- ===========================================================================
-- AsyncHTTP (the request pool)
-- ===========================================================================

structure AsyncHTTP where
  requests : List AsyncHTTPRequest
  ownsClients : Bool
  defaultHeaders : List Char
  defaultTimeout : Nat
  hasGlobalErrorCb : Bool
deriving DecidableEq

/-- `AsyncHTTP::begin()`: reset every slot, clients lazily created. -/
def AsyncHTTP.beginPool (http : AsyncHTTP) : AsyncHTTP :=
  { http with ownsClients := true,
              requests := http.requests.map
                (fun r => { r.reset with hasClient := false }) }

/-- Loop of `AsyncHTTP::_allocSlot`: index of the first inactive slot. -/
def allocSlotAux : List AsyncHTTPRequest → Nat → Option Nat
  | [], _ => none
  | r :: rest, i => if r.active then allocSlotAux rest (i + 1) else some i

/-- `AsyncHTTP::_allocSlot` (the found slot is reset by the caller side of
the model, mirroring `_requests[i].reset()`). -/
def AsyncHTTP.allocSlot (http : AsyncHTTP) : Option Nat :=
  allocSlotAux http.requests 0

/-- Host/port/path split of `AsyncHTTP::_parseUrl` after scheme stripping. -/
def parseUrlRest (u : List Char) (tls : Bool) :
    Option (List Char × Nat × List Char × Bool) :=
  let slashIdx := indexOfChar u '/'
  let hostPort := if slashIdx < 0 then u else u.take slashIdx.toNat
  let path := if slashIdx < 0 then ("/".toList) else u.drop slashIdx.toNat
  let colonIdx := indexOfChar hostPort ':'
  let host := if colonIdx > 0 then hostPort.take colonIdx.toNat else hostPort
  let port : Nat :=
    if colonIdx > 0 then
      ((atolChars (hostPort.drop (colonIdx.toNat + 1))) % 65536).toNat
    else if tls then 443 else 80
  if host.length > 0 then some (host, port, path, tls) else none

/-- `AsyncHTTP::_parseUrl`: scheme must be `http://` or `https://`; the
port cast to `uint16_t`; host must be non-empty. -/
def parseUrl (url : List Char) : Option (List Char × Nat × List Char × Bool) :=
  if ("https://".toList).isPrefixOf url then parseUrlRest (url.drop 8) true
  else if ("http://".toList).isPrefixOf url then parseUrlRest (url.drop 7) false
  else none

def methodName : AsyncHTTPMethod → List Char
  | .get => ("GET".toList)
  | .post => ("POST".toList)
  | .put => ("PUT".toList)
  | .patch => ("PATCH".toList)
  | .del => ("DELETE".toList)
  | .head => ("HEAD".toList)

/-- `AsyncHTTP::_buildRequestHeader`. -/
def buildRequestHeader (http : AsyncHTTP) (req : AsyncHTTPRequest)
    (body contentType : List Char) : List Char :=
  methodName req.method ++ [' '] ++ req.path ++ (" HTTP/1.1\r\n".toList)
  ++ ("Host: ".toList) ++ req.host
  ++ (if (req.tls ∧ req.port ≠ 443) ∨ (¬req.tls ∧ req.port ≠ 80) then
        [':'] ++ natToChars req.port
      else [])
  ++ ("\r\n".toList)
  ++ http.defaultHeaders
  ++ (if contentType.length > 0 then
        ("Content-Type: ".toList) ++ contentType ++ ("\r\n".toList)
      else [])
  ++ (if body.length > 0 then
        ("Content-Length: ".toList) ++ natToChars body.length ++ ("\r\n".toList)
      else [])
  ++ ("Connection: close\r\n\r\n".toList)

/-- `AsyncHTTP::request`: allocate a slot, parse the URL, populate the
slot, build the framing, bind a client and start connecting.  Returns the
updated pool, the slot id (or a negative error code) and the callback
events fired synchronously. -/
def AsyncHTTP.request (http : AsyncHTTP) (method : AsyncHTTPMethod)
    (url body contentType : List Char) (hasResponseCb : Bool) (now : Nat) :
    AsyncHTTP × Int × List HTTPEvent :=
  match http.allocSlot with
  | none =>
    (http, ASYNC_HTTP_ERR_POOL_FULL,
     if http.hasGlobalErrorCb then
       [.errorEvt ASYNC_HTTP_ERR_POOL_FULL ("Request pool full")]
     else [])
  | some slot =>
    let req0 := { (http.requests.getD slot defaultRequest).reset with
                  method := method }
    match parseUrl url with
    | none =>
      ({ http with requests := http.requests.set slot req0.reset },
       ASYNC_HTTP_ERR_INVALID_URL,
       if http.hasGlobalErrorCb then
         [.errorEvt ASYNC_HTTP_ERR_INVALID_URL ("Invalid URL")]
       else [])
    | some (host, port, path, tls) =>
      let req1 := { req0 with
                    host := host, port := port, path := path,
                    tls := tls, requestBody := body,
                    timeoutMs := http.defaultTimeout,
                    hasResponseCb := hasResponseCb,
                    hasErrorCb := http.hasGlobalErrorCb }
      let req2 := { req1 with
                    requestHeaders := buildRequestHeader http req1 body contentType }
      let req3 := { req2 with
                    hasClient := true, state := .connecting,
                    startTime := now, active := true }
      ({ http with requests := http.requests.set slot req3 },
       (slot : Int), [])

/-- Slot-by-slot loop of `AsyncHTTP::update`, one `CycleInput` per slot. -/
def updateSlots : List AsyncHTTPRequest → List CycleInput →
    List AsyncHTTPRequest × List HTTPEvent
  | [], _ => ([], [])
  | rs, [] => (rs, [])
  | r :: rs, inp :: inps =>
    let o := slotCycle r inp
    let (rs2, es) := updateSlots rs inps
    (o.req :: rs2, o.events ++ es)

/-- `AsyncHTTP::update`: advance every active slot once. -/
def AsyncHTTP.update (http : AsyncHTTP) (inps : List CycleInput) :
    AsyncHTTP × List HTTPEvent :=
  let (rs, es) := updateSlots http.requests inps
  ({ http with requests := rs }, es)

/-- `AsyncHTTP::pending`: number of active slots. -/
def AsyncHTTP.pending (http : AsyncHTTP) : Nat :=
  (http.requests.filter (·.active)).length

/-- `AsyncHTTP::abort`: on a valid id stop and detach the slot's client and
reset the slot; otherwise a no-op.  Fires no callback. -/
def AsyncHTTP.abortId (http : AsyncHTTP) (requestId : Int) : AsyncHTTP :=
  if 0 ≤ requestId ∧ requestId < (ASYNC_HTTP_MAX_REQUESTS : Int) then
    let i := requestId.toNat
    let req := http.requests.getD i defaultRequest
    { http with requests :=
        http.requests.set i { req.reset with hasClient := false } }
  else http

-- ===========================================================================
-- Concrete fixtures used by witnesses and the reachability scenario
-- ===========================================================================

/-- A pump-cycle input built from the fields that vary across fixtures. -/
def exCInp (av : List Char) (ca : Bool) (w : Nat) : CycleInput :=
  { now := 0, connected := true, connectOk := false, written := w,
    avail := av, connAfter := ca }

/-- A slot sitting in the receiving-body state with content-length 1 left. -/
def exBodyReq : AsyncHTTPRequest :=
  { defaultRequest with
    active := true, state := .receivingBody, hasClient := true,
    hasResponseCb := true, hasErrorCb := true, remainingBytes := 1 }

/-- A chunked slot in the receiving-body state. -/
def exChunkReq : AsyncHTTPRequest :=
  { defaultRequest with
    active := true, state := .receivingBody, hasClient := true,
    hasResponseCb := true, hasErrorCb := true, chunked := true }

/-- A slot in the receiving-body state whose body buffer is one byte below
capacity. -/
def exCapReq : AsyncHTTPRequest :=
  { defaultRequest with
    active := true, state := .receivingBody, hasClient := true,
    hasResponseCb := true, hasErrorCb := true,
    response := { statusCode := 200, body := List.replicate 4095 'a',
                  contentLength := -1, headers := [] } }

/-- A slot in the connecting state. -/
def exConnReq : AsyncHTTPRequest :=
  { defaultRequest with
    active := true, state := .connecting, hasClient := true,
    hasResponseCb := true, hasErrorCb := true }

/-- A slot in the sending state. -/
def exSendReq : AsyncHTTPRequest :=
  { defaultRequest with
    active := true, state := .sending, hasClient := true,
    hasResponseCb := true, hasErrorCb := true,
    requestHeaders := (("GET / HTTP/1.1\r\n\r\n").toList) }

/-- A response with two same-name headers differing in case. -/
def exResp : AsyncHTTPResponse :=
  { statusCode := 200, body := [], contentLength := -1,
    headers := [((("X-A").toList), (("1").toList)),
                ((("Content-TYPE").toList), (("a").toList)),
                ((("content-type").toList), (("b").toList))] }

/-- A pool with every slot active: the next submission must fail. -/
def exFullPool : AsyncHTTP :=
  { requests := List.replicate ASYNC_HTTP_MAX_REQUESTS
      { defaultRequest with active := true, state := .connecting, hasClient := true },
    ownsClients := true, defaultHeaders := [],
    defaultTimeout := ASYNC_HTTP_DEFAULT_TIMEOUT, hasGlobalErrorCb := true }

/-- A freshly-initialised pool with a registered global error handler. -/
def exPool0 : AsyncHTTP :=
  { requests := List.replicate ASYNC_HTTP_MAX_REQUESTS defaultRequest,
    ownsClients := true, defaultHeaders := [],
    defaultTimeout := ASYNC_HTTP_DEFAULT_TIMEOUT, hasGlobalErrorCb := true }

/-- Submit one GET, then pump the pool through connect, send, a header
block `HTTP/1.1 200` + blank line, and finally a closed connection: the
request completes and its response callback fires. -/
def exP1 : AsyncHTTP :=
  ((exPool0.request .get (("http://h/").toList) [] [] true 0).1.update
    (List.replicate 4 (exCInp [] true 0))).1

def exP2 : AsyncHTTP := (exP1.update (List.replicate 4 (exCInp [] true 9))).1

def exP3 : AsyncHTTP :=
  (exP2.update (List.replicate 4 (exCInp (("HTTP/1.1 200\r\n\r\n").toList) true 0))).1

def exP4 : AsyncHTTP := (exP3.update (List.replicate 4 (exCInp [] false 0))).1

/-- The slot of that request after its terminal outcome fired. -/
def exCxSlot : AsyncHTTPRequest := exP4.requests.getD 0 defaultRequest

/-- A pump-cycle input arriving 20 seconds after the request started. -/
def exLateInp : CycleInput :=
  { now := 20000, connected := false, connectOk := true, written := 0,
    avail := [], connAfter := true }

-- ===========================================================================
-- Helper lemmas
-- ===========================================================================

theorem stripLoopF_done (fuel : Nat) (body : List Char) (pos : Nat)
    (res : List Char) (h : body.length ≤ pos) :
    stripLoopF fuel body pos res = res := by
  cases fuel with
  | zero => rfl
  | succ fuel => simp [stripLoopF, Nat.not_lt.mpr h]

theorem findSubAux_ge (needle : List Char) :
    ∀ (l : List Char) (i j : Nat), findSubAux needle l i = some j → i ≤ j := by
  intro l
  induction l with
  | nil =>
    intro i j h
    simp only [findSubAux] at h
    split at h
    · simp at h; omega
    · simp at h
  | cons c rest ih =>
    intro i j h
    simp only [findSubAux] at h
    split at h
    · simp at h; omega
    · have := ih (i + 1) j h; omega

theorem findSub_ge (hay needle : List Char) (start j : Nat)
    (h : findSub hay needle start = some j) : start ≤ j :=
  findSubAux_ge needle (hay.drop start) start j h

theorem stripLoopF_length_le :
    ∀ (fuel : Nat) (body : List Char) (pos : Nat) (res : List Char),
    (stripLoopF fuel body pos res).length ≤ res.length + (body.length - pos) := by
  intro fuel
  induction fuel with
  | zero => intro body pos res; simp [stripLoopF]
  | succ fuel ih =>
    intro body pos res
    rw [stripLoopF]
    split
    · rename_i hpos
      rcases hfind : findSub body ['\r', '\n'] pos with _ | lineEnd
      · simp
      · simp only
        split
        · simp
        · have hge : pos ≤ lineEnd := findSub_ge _ _ _ _ hfind
          have h1 := ih body
            (min (lineEnd + 2 + (strtolHex (trimChars ((body.drop pos).take (lineEnd - pos)))).toNat) body.length + 2)
            (res ++ (body.drop (lineEnd + 2)).take
              (min (lineEnd + 2 + (strtolHex (trimChars ((body.drop pos).take (lineEnd - pos)))).toNat) body.length - (lineEnd + 2)))
          refine le_trans h1 ?_
          simp only [List.length_append, List.length_take, List.length_drop]
          omega
    · simp

theorem stripChunkedEncoding_length_le (body : List Char) :
    (stripChunkedEncoding body).length ≤ body.length := by
  have := stripLoopF_length_le (body.length + 1) body 0 []
  simpa [stripChunkedEncoding] using this

theorem eqIgnoreCase_congr :
    ∀ (n n' a : List Char), eqIgnoreCase n n' = true →
    eqIgnoreCase a n = eqIgnoreCase a n' := by
  intro n
  induction n with
  | nil =>
    intro n' a h
    cases n' with
    | nil => rfl
    | cons y ys => simp [eqIgnoreCase] at h
  | cons x xs ih =>
    intro n' a h
    cases n' with
    | nil => simp [eqIgnoreCase] at h
    | cons y ys =>
      simp only [eqIgnoreCase, Bool.and_eq_true, beq_iff_eq] at h
      cases a with
      | nil => rfl
      | cons b bs =>
        simp only [eqIgnoreCase, h.1, ih ys bs h.2]

theorem headerLookupAux_congr (hs : List (List Char × List Char))
    (n n' : List Char) (h : eqIgnoreCase n n' = true) :
    headerLookupAux hs n = headerLookupAux hs n' := by
  induction hs with
  | nil => rfl
  | cons p rest ih =>
    simp only [headerLookupAux, eqIgnoreCase_congr n n' p.1 h, ih]

theorem headerLookupAux_first :
    ∀ (pre : List (List Char × List Char)) (nm v : List Char)
      (post : List (List Char × List Char)) (n : List Char),
    (∀ p ∈ pre, eqIgnoreCase p.1 n = false) → eqIgnoreCase nm n = true →
    headerLookupAux (pre ++ (nm, v) :: post) n = v := by
  intro pre
  induction pre with
  | nil =>
    intro nm v post n _ hm
    simp [headerLookupAux, hm]
  | cons p rest ih =>
    intro nm v post n hpre hm
    have hp : eqIgnoreCase p.1 n = false := hpre p (by simp)
    simp only [List.cons_append, headerLookupAux, hp]
    simp only [Bool.false_eq_true, if_false]
    exact ih nm v post n (fun q hq => hpre q (by simp [hq])) hm

theorem AsyncHTTPResponse.addHeader_body (r : AsyncHTTPResponse)
    (n v : List Char) : (r.addHeader n v).body = r.body := by
  unfold AsyncHTTPResponse.addHeader
  split <;> rfl

theorem parseHeaderLine_preserve (req : AsyncHTTPRequest) (buf : List Char) :
    (parseHeaderLine req buf).state = req.state
    ∧ (parseHeaderLine req buf).active = req.active
    ∧ (parseHeaderLine req buf).hasResponseCb = req.hasResponseCb
    ∧ (parseHeaderLine req buf).hasErrorCb = req.hasErrorCb
    ∧ (parseHeaderLine req buf).hasClient = req.hasClient
    ∧ (parseHeaderLine req buf).response.body = req.response.body
    ∧ (parseHeaderLine req buf).timeoutMs = req.timeoutMs
    ∧ (parseHeaderLine req buf).startTime = req.startTime := by
  unfold parseHeaderLine
  simp only [gt_iff_lt]
  split
  · split <;> simp
  · split
    · refine ⟨by simp, by simp, by simp, by simp, by simp, ?_, by simp, by simp⟩
      simp only [gt_iff_lt]
      split <;> simp [AsyncHTTPResponse.addHeader_body]
    · simp

theorem headersDrain_spec (ca : Bool) :
    ∀ (bs : List Char) (req : AsyncHTTPRequest),
    (headersDrain ca req bs).events.length ≤ 1
    ∧ ((headersDrain ca req bs).events ≠ [] →
        (headersDrain ca req bs).req.active = false
        ∧ ((headersDrain ca req bs).req.state = AsyncHTTPState.complete
           ∨ (headersDrain ca req bs).req.state = AsyncHTTPState.error))
    ∧ ((headersDrain ca req bs).req.active = true → req.active = true)
    ∧ ((headersDrain ca req bs).req.state = AsyncHTTPState.idle →
        req.state = AsyncHTTPState.idle)
    ∧ (headersDrain ca req bs).req.response.body = req.response.body := by
  intro bs
  induction bs with
  | nil =>
    intro req
    simp only [headersDrain]
    cases ca with
    | true => simp
    | false =>
      simp only [Bool.not_false, if_pos]
      split
      · simp only [finishWithResponse]
        split <;> simp
      · simp only [finishWithError]
        split <;> simp
  | cons c rest ih =>
    intro req
    simp only [headersDrain]
    split
    · split
      · split
        · simp
        · have hp := parseHeaderLine_preserve req req.headerLineBuf.dropLast
          have hi := ih { parseHeaderLine req req.headerLineBuf.dropLast with
                          headerLineBuf := [] }
          refine ⟨hi.1, hi.2.1, ?_, ?_, ?_⟩
          · intro h
            have := hi.2.2.1 h
            simp at this
            rw [← hp.2.1]
            exact this
          · intro h
            have := hi.2.2.2.1 h
            simp at this
            rw [← hp.1]
            exact this
          · rw [hi.2.2.2.2]
            simpa using hp.2.2.2.2.2.1
      · split
        · simp
        · have hp := parseHeaderLine_preserve req req.headerLineBuf
          have hi := ih { parseHeaderLine req req.headerLineBuf with
                          headerLineBuf := [] }
          refine ⟨hi.1, hi.2.1, ?_, ?_, ?_⟩
          · intro h
            have := hi.2.2.1 h
            simp at this
            rw [← hp.2.1]
            exact this
          · intro h
            have := hi.2.2.2.1 h
            simp at this
            rw [← hp.1]
            exact this
          · rw [hi.2.2.2.2]
            simpa using hp.2.2.2.2.2.1
    · have hi := ih { req with headerLineBuf := req.headerLineBuf ++ [c] }
      refine ⟨hi.1, hi.2.1, ?_, ?_, ?_⟩
      · intro h
        have := hi.2.2.1 h
        simpa using this
      · intro h
        have := hi.2.2.2.1 h
        simpa using this
      · rw [hi.2.2.2.2]

theorem bodyDrain_spec (ca : Bool) :
    ∀ (bs : List Char) (req : AsyncHTTPRequest),
    (bodyDrain ca req bs).events.length ≤ 1
    ∧ ((bodyDrain ca req bs).events ≠ [] →
        (bodyDrain ca req bs).req.active = false
        ∧ (bodyDrain ca req bs).req.state = AsyncHTTPState.complete)
    ∧ ((bodyDrain ca req bs).req.active = true → req.active = true)
    ∧ ((bodyDrain ca req bs).req.state = AsyncHTTPState.idle →
        req.state = AsyncHTTPState.idle) := by
  intro bs
  induction bs with
  | nil =>
    intro req
    simp only [bodyDrain]
    cases ca with
    | true => simp
    | false =>
      simp only [Bool.not_false, if_pos, finishWithResponse]
      split <;> split <;> simp
  | cons c rest ih =>
    intro req
    simp only [bodyDrain]
    split
    · split
      · simp only [finishWithResponse]
        split <;> simp
      · have hi := ih { req with response :=
          { req.response with body := req.response.body ++ [c] } }
        refine ⟨hi.1, hi.2.1, ?_, ?_⟩
        · intro h
          have := hi.2.2.1 h
          simpa using this
        · intro h
          have := hi.2.2.2 h
          simpa using this
    · split
      · split
        · simp only [finishWithResponse]
          split <;> simp
        · split
          · simp only [finishWithResponse]
            split <;> simp
          · have hi := ih { { req with response :=
              { req.response with body := req.response.body ++ [c] } } with
              remainingBytes := req.remainingBytes - 1 }
            refine ⟨hi.1, hi.2.1, ?_, ?_⟩
            · intro h
              have := hi.2.2.1 h
              simpa using this
            · intro h
              have := hi.2.2.2 h
              simpa using this
      · split
        · simp only [finishWithResponse]
          split <;> simp
        · have hi := ih { req with response :=
            { req.response with body := req.response.body ++ [c] } }
          refine ⟨hi.1, hi.2.1, ?_, ?_⟩
          · intro h
            have := hi.2.2.1 h
            simpa using this
          · intro h
            have := hi.2.2.2 h
            simpa using this

theorem processSlot_spec (req : AsyncHTTPRequest) (inp : CycleInput) :
    (processSlot req inp).events.length ≤ 1
    ∧ ((processSlot req inp).events ≠ [] →
        (processSlot req inp).req.active = false
        ∧ ((processSlot req inp).req.state = AsyncHTTPState.complete
           ∨ (processSlot req inp).req.state = AsyncHTTPState.error))
    ∧ ((processSlot req inp).req.active = true → req.active = true)
    ∧ ((processSlot req inp).req.state = AsyncHTTPState.idle →
        req.state = AsyncHTTPState.idle) := by
  unfold processSlot
  split
  · simp
  · split
    · simp only [finishWithError]
      split <;> simp
    · split
      · -- connecting
        split
        · simp
        · split
          · simp
          · simp only [finishWithError]
            split <;> simp
      · -- sending
        split
        · simp only [finishWithError]
          split <;> simp
        · simp
      · -- receiving headers
        have h := headersDrain_spec inp.connAfter inp.avail req
        exact ⟨h.1, h.2.1, h.2.2.1, h.2.2.2.1⟩
      · -- receiving body
        have h := bodyDrain_spec inp.connAfter inp.avail req
        exact ⟨h.1, fun hne => ⟨(h.2.1 hne).1, Or.inl (h.2.1 hne).2⟩,
               h.2.2.1, h.2.2.2⟩
      · -- terminal / idle states
        simp


theorem headersDrain_terminal (ca : Bool) :
    ∀ (bs : List Char) (req : AsyncHTTPRequest),
    req.state = AsyncHTTPState.receivingHeaders → req.hasResponseCb = true →
    req.hasErrorCb = true →
    ((headersDrain ca req bs).req.state = AsyncHTTPState.complete
     ∨ (headersDrain ca req bs).req.state = AsyncHTTPState.error) →
    (headersDrain ca req bs).events.length = 1 := by
  intro bs
  induction bs with
  | nil =>
    intro req hst hcb hecb hterm
    simp only [headersDrain] at hterm ⊢
    cases ca with
    | true => simp [hst] at hterm
    | false =>
      simp only [Bool.not_false, if_pos] at hterm ⊢
      split
      · simp [finishWithResponse, hcb]
      · simp [finishWithError, hecb]
  | cons c rest ih =>
    intro req hst hcb hecb hterm
    simp only [headersDrain] at hterm ⊢
    split
    · rename_i h1
      split
      · rename_i h2
        split
        · rename_i h3
          simp [h1, h2, h3, hst] at hterm
        · rename_i h3
          simp only [h1, h2, h3, if_true, if_false, Bool.false_eq_true] at hterm
          have hp := parseHeaderLine_preserve req req.headerLineBuf.dropLast
          refine ih _ ?_ ?_ ?_ ?_
          · simp [hp.1, hst]
          · simp [hp.2.2.1, hcb]
          · simp [hp.2.2.2.1, hecb]
          · simpa using hterm
      · rename_i h2
        split
        · rename_i h3
          simp [h1, h2, h3, hst] at hterm
        · rename_i h3
          simp only [h1, h2, h3, if_true, if_false, Bool.false_eq_true] at hterm
          have hp := parseHeaderLine_preserve req req.headerLineBuf
          refine ih _ ?_ ?_ ?_ ?_
          · simp [hp.1, hst]
          · simp [hp.2.2.1, hcb]
          · simp [hp.2.2.2.1, hecb]
          · simpa using hterm
    · rename_i h1
      simp only [h1, if_false, Bool.false_eq_true] at hterm
      refine ih _ ?_ ?_ ?_ ?_
      · simp [hst]
      · simp [hcb]
      · simp [hecb]
      · simpa using hterm

theorem bodyDrain_terminal (ca : Bool) :
    ∀ (bs : List Char) (req : AsyncHTTPRequest),
    req.state = AsyncHTTPState.receivingBody → req.hasResponseCb = true →
    ((bodyDrain ca req bs).req.state = AsyncHTTPState.complete
     ∨ (bodyDrain ca req bs).req.state = AsyncHTTPState.error) →
    (bodyDrain ca req bs).events.length = 1 := by
  intro bs
  induction bs with
  | nil =>
    intro req hst hcb hterm
    simp only [bodyDrain] at hterm ⊢
    cases ca with
    | true => simp [hst] at hterm
    | false =>
      simp only [Bool.not_false, if_pos]
      split <;> simp [finishWithResponse, hcb]
  | cons c rest ih =>
    intro req hst hcb hterm
    simp only [bodyDrain] at hterm ⊢
    split
    · rename_i h1
      split
      · simp [finishWithResponse, hcb]
      · rename_i h2
        simp only [h1, h2, if_true, if_false, Bool.false_eq_true] at hterm
        refine ih _ ?_ ?_ ?_
        · simp [hst]
        · simp [hcb]
        · simp only [h1]
          simpa using hterm
    · rename_i h1
      split
      · rename_i h2
        split
        · simp [finishWithResponse, hcb]
        · rename_i h3
          split
          · simp [finishWithResponse, hcb]
          · rename_i h4
            simp only [h1, h2, h3, h4, if_true, if_false, Bool.false_eq_true] at hterm
            refine ih _ ?_ ?_ ?_
            · simp [hst]
            · simp [hcb]
            · simp only [Bool.not_eq_true] at h1
              simp only [h1]
              simpa using hterm
      · rename_i h2
        split
        · simp [finishWithResponse, hcb]
        · rename_i h3
          simp only [h1, h2, h3, if_true, if_false, Bool.false_eq_true] at hterm
          refine ih _ ?_ ?_ ?_
          · simp [hst]
          · simp [hcb]
          · simp only [Bool.not_eq_true] at h1
            simp only [h1]
            simpa using hterm

theorem processSlot_terminal_events (req : AsyncHTTPRequest) (inp : CycleInput)
    (hcb : req.hasResponseCb = true) (hecb : req.hasErrorCb = true)
    (hst : req.state = AsyncHTTPState.connecting ∨ req.state = AsyncHTTPState.sending
      ∨ req.state = AsyncHTTPState.receivingHeaders
      ∨ req.state = AsyncHTTPState.receivingBody)
    (hterm : (processSlot req inp).req.state = AsyncHTTPState.complete
      ∨ (processSlot req inp).req.state = AsyncHTTPState.error) :
    (processSlot req inp).events.length = 1 := by
  unfold processSlot at hterm ⊢
  split
  · rename_i h1
    simp only [h1, if_true] at hterm
    rcases hst with h | h | h | h <;> simp [h] at hterm
  · rename_i h1
    split
    · simp [finishWithError, hecb]
    · rename_i h2
      simp only [h1, if_false, Bool.false_eq_true] at hterm
      rw [if_neg h2] at hterm
      rcases hst with h | h | h | h
      · simp only [h] at hterm ⊢
        split
        · rename_i h3
          simp only [h3, if_true] at hterm
          simp at hterm
        · rename_i h3
          split
          · rename_i h4
            simp only [h3, h4, if_true, if_false, Bool.false_eq_true] at hterm
            simp at hterm
          · simp [finishWithError, hecb]
      · simp only [h] at hterm ⊢
        split
        · simp [finishWithError, hecb]
        · rename_i h3
          simp only [h3, if_false] at hterm
          simp at hterm
      · simp only [h] at hterm ⊢
        exact headersDrain_terminal inp.connAfter inp.avail req h hcb hecb hterm
      · simp only [h] at hterm ⊢
        exact bodyDrain_terminal inp.connAfter inp.avail req h hcb hterm

theorem abortStep_inactive (req : AsyncHTTPRequest) :
    (abortStep req).1.active = false := rfl

theorem runOps_inactive :
    ∀ (ops : List SlotOp) (req : AsyncHTTPRequest), req.active = false →
    (runOps req ops).2 = [] := by
  intro ops
  induction ops with
  | nil => intro req _; rfl
  | cons op rest ih =>
    intro req h
    cases op with
    | pump inp =>
      simp only [runOps, slotOpStep, slotCycle, h, Bool.false_eq_true, if_false]
      simpa using ih req h
    | abortOp =>
      simp only [runOps, slotOpStep]
      simpa [abortStep] using ih (abortStep req).1 (abortStep_inactive req)

theorem runOps_le_one :
    ∀ (ops : List SlotOp) (req : AsyncHTTPRequest),
    (runOps req ops).2.length ≤ 1 := by
  intro ops
  induction ops with
  | nil => intro req; simp [runOps]
  | cons op rest ih =>
    intro req
    cases op with
    | abortOp =>
      simp only [runOps, slotOpStep]
      simpa [abortStep] using ih (abortStep req).1
    | pump inp =>
      by_cases h : req.active = true
      · simp only [runOps, slotOpStep, slotCycle, h, if_true]
        rcases he : (processSlot req inp).events with _ | ⟨e, es⟩
        · simpa [he] using ih (processSlot req inp).req
        · have hlen := (processSlot_spec req inp).1
          rw [he] at hlen
          have hes : es = [] := by
            simp at hlen
            exact hlen
          have hinact := ((processSlot_spec req inp).2.1 (by simp [he])).1
          have hrest := runOps_inactive rest (processSlot req inp).req hinact
          simp [he, hes, hrest]
      · have h0 : req.active = false := by simpa using h
        simp only [runOps, slotOpStep, slotCycle, h0, Bool.false_eq_true, if_false]
        simpa using ih req


theorem bodyDrain_countdown (ca : Bool) :
    ∀ (bs : List Char) (req : AsyncHTTPRequest) (k : Nat),
    req.chunked = false → req.remainingBytes = (k : Int) → 0 < k →
    req.response.body.length + k ≤ ASYNC_HTTP_BODY_BUF_SIZE →
    req.hasResponseCb = true → k < bs.length →
    (bodyDrain ca req bs).events =
      [HTTPEvent.responseEvt { req.response with
        body := req.response.body ++ bs.take k }]
    ∧ (bodyDrain ca req bs).req.state = AsyncHTTPState.complete
    ∧ (bodyDrain ca req bs).req.active = false
    ∧ (bodyDrain ca req bs).req.remainingBytes = 0
    ∧ (bodyDrain ca req bs).leftover = bs.drop k := by
  intro bs
  induction bs with
  | nil =>
    intro req k _ _ _ _ _ hlen
    simp at hlen
  | cons c rest ih =>
    intro req k hch hrb hk hcap hcb hlen
    obtain ⟨m, rfl⟩ : ∃ m, k = m + 1 := ⟨k - 1, by omega⟩
    simp only [bodyDrain]
    split
    · rename_i hcontra
      simp [hch] at hcontra
    split
    · split
      · rename_i h1 h2
        have hm : m = 0 := by
          simp only [hrb] at h2
          omega
        subst hm
        simp [finishWithResponse, hcb, hrb]
      · rename_i h1 h2
        have hm1 : 1 ≤ m := by
          simp only [hrb] at h2
          by_contra hcon
          apply h2
          have : m = 0 := by omega
          simp [this]
        split
        · rename_i h3
          exfalso
          simp only [List.length_append, List.length_cons, List.length_nil,
            ASYNC_HTTP_BODY_BUF_SIZE] at h3
          simp only [ASYNC_HTTP_BODY_BUF_SIZE] at hcap
          omega
        · rename_i h3
          have hi := ih { req with
              response := { req.response with body := req.response.body ++ [c] },
              remainingBytes := req.remainingBytes - 1 } m
            (by simp [hch]) (by simp [hrb])
            hm1 (by simp; omega) (by simp [hcb]) (by simpa using hlen)
          refine ⟨hi.1.trans ?_, hi.2.1, hi.2.2.1, hi.2.2.2.1,
                  hi.2.2.2.2.trans ?_⟩
          · simp
          · simp
    · rename_i h1
      exfalso
      apply h1
      rw [hrb]
      exact_mod_cast Nat.succ_pos m

theorem bodyDrain_chunked :
    ∀ (bs : List Char) (req : AsyncHTTPRequest),
    req.chunked = true → req.hasResponseCb = true →
    req.response.body.length + bs.length + 1 ≤ ASYNC_HTTP_BODY_BUF_SIZE →
    (bodyDrain false req bs).events =
      [HTTPEvent.responseEvt { req.response with
        body := stripChunkedEncoding (req.response.body ++ bs) }]
    ∧ (bodyDrain false req bs).req.state = AsyncHTTPState.complete
    ∧ (bodyDrain false req bs).req.active = false
    ∧ (bodyDrain false req bs).leftover = [] := by
  intro bs
  induction bs with
  | nil =>
    intro req hch hcb _
    simp only [bodyDrain, Bool.not_false, if_pos, hch, if_true, finishWithResponse, hcb]
    simp
  | cons c rest ih =>
    intro req hch hcb hcap
    simp only [bodyDrain]
    split
    · split
      · rename_i h1 h2
        exfalso
        simp only [List.length_append, List.length_cons, List.length_nil,
          ASYNC_HTTP_BODY_BUF_SIZE] at h2 hcap
        simp at h2 hcap
        omega
      · have hi := ih { req with response :=
          { req.response with body := req.response.body ++ [c] } }
          (by simp [hch]) (by simp [hcb]) (by simp; simp at hcap; omega)
        refine ⟨hi.1.trans ?_, hi.2.1, hi.2.2.1, hi.2.2.2⟩
        simp
    · rename_i h1
      simp [hch] at h1

theorem bodyDrain_at_capacity (ca : Bool) (c : Char) (rest : List Char)
    (req : AsyncHTTPRequest) (hcb : req.hasResponseCb = true)
    (hlen : req.response.body.length = ASYNC_HTTP_BODY_BUF_SIZE - 1) :
    (bodyDrain ca req (c :: rest)).events =
      [HTTPEvent.responseEvt { req.response with
        body := req.response.body ++ [c] }]
    ∧ (bodyDrain ca req (c :: rest)).req.state = AsyncHTTPState.complete
    ∧ (bodyDrain ca req (c :: rest)).req.active = false
    ∧ (bodyDrain ca req (c :: rest)).leftover = rest := by
  have hge : (req.response.body ++ [c]).length ≥ ASYNC_HTTP_BODY_BUF_SIZE := by
    simp only [List.length_append, List.length_cons, List.length_nil, hlen,
      ASYNC_HTTP_BODY_BUF_SIZE]
    omega
  simp only [bodyDrain]
  repeat' split
  all_goals simp [finishWithResponse, hcb]


theorem bodyDrain_capacity (ca : Bool) :
    ∀ (bs : List Char) (req : AsyncHTTPRequest),
    req.response.body.length ≤ ASYNC_HTTP_BODY_BUF_SIZE - 1 →
    (bodyDrain ca req bs).req.response.body.length ≤ ASYNC_HTTP_BODY_BUF_SIZE
    ∧ ((bodyDrain ca req bs).req.active = true →
        (bodyDrain ca req bs).req.response.body.length ≤ ASYNC_HTTP_BODY_BUF_SIZE - 1) := by
  intro bs
  induction bs with
  | nil =>
    intro req hb
    simp only [bodyDrain]
    cases ca with
    | true =>
      simp only [Bool.not_true, Bool.false_eq_true, if_false]
      constructor
      · show req.response.body.length ≤ ASYNC_HTTP_BODY_BUF_SIZE
        simp only [ASYNC_HTTP_BODY_BUF_SIZE] at hb ⊢
        omega
      · intro _
        simpa using hb
    | false =>
      simp only [Bool.not_false, if_pos]
      split
      · constructor
        · simp only [finishWithResponse]
          refine le_trans (stripChunkedEncoding_length_le _) ?_
          simp only [ASYNC_HTTP_BODY_BUF_SIZE] at hb ⊢
          omega
        · intro hact
          simp [finishWithResponse] at hact
      · constructor
        · simp only [finishWithResponse]
          simp only [ASYNC_HTTP_BODY_BUF_SIZE] at hb ⊢
          omega
        · intro hact
          simp [finishWithResponse] at hact
  | cons c rest ih =>
    intro req hb
    simp only [bodyDrain]
    repeat' split
    all_goals
      first
      | (refine ⟨?_, fun hact => absurd hact (by simp [finishWithResponse])⟩
         simp only [finishWithResponse]
         simp only [List.length_append, List.length_cons, List.length_nil,
           ASYNC_HTTP_BODY_BUF_SIZE] at hb ⊢
         omega)
      | (apply ih
         rename_i h
         simp only [List.length_append, List.length_cons, List.length_nil,
           ASYNC_HTTP_BODY_BUF_SIZE, ge_iff_le, not_le] at h ⊢
         omega)

theorem processSlot_headers_eq (req : AsyncHTTPRequest) (inp : CycleInput)
    (hcl : req.hasClient = true)
    (hst : req.state = AsyncHTTPState.receivingHeaders)
    (hto : elapsedMillis inp.now req.startTime ≤ req.timeoutMs) :
    processSlot req inp = headersDrain inp.connAfter req inp.avail := by
  unfold processSlot
  rw [if_neg (by simp [hcl]), if_neg (fun h => Nat.not_lt.mpr hto h.2)]
  simp only [hst]

theorem processSlot_body_eq (req : AsyncHTTPRequest) (inp : CycleInput)
    (hcl : req.hasClient = true)
    (hst : req.state = AsyncHTTPState.receivingBody)
    (hto : elapsedMillis inp.now req.startTime ≤ req.timeoutMs) :
    processSlot req inp = bodyDrain inp.connAfter req inp.avail := by
  unfold processSlot
  rw [if_neg (by simp [hcl]), if_neg (fun h => Nat.not_lt.mpr hto h.2)]
  simp only [hst]

theorem processSlot_body_bound (req : AsyncHTTPRequest) (inp : CycleInput)
    (hb : req.response.body.length ≤ ASYNC_HTTP_BODY_BUF_SIZE - 1) :
    (processSlot req inp).req.response.body.length ≤ ASYNC_HTTP_BODY_BUF_SIZE
    ∧ ((processSlot req inp).req.active = true →
        (processSlot req inp).req.response.body.length
          ≤ ASYNC_HTTP_BODY_BUF_SIZE - 1) := by
  have hb2 : req.response.body.length ≤ ASYNC_HTTP_BODY_BUF_SIZE := by
    simp only [ASYNC_HTTP_BODY_BUF_SIZE] at hb ⊢
    omega
  unfold processSlot
  split
  · exact ⟨hb2, fun _ => hb⟩
  · split
    · exact ⟨hb2, fun hact => absurd hact (by simp [finishWithError])⟩
    · split
      · -- connecting
        split
        · exact ⟨hb2, fun _ => hb⟩
        · split
          · exact ⟨hb2, fun _ => hb⟩
          · exact ⟨hb2, fun hact => absurd hact (by simp [finishWithError])⟩
      · -- sending
        split
        · exact ⟨hb2, fun hact => absurd hact (by simp [finishWithError])⟩
        · exact ⟨hb2, fun _ => hb⟩
      · -- receiving headers
        have heq := (headersDrain_spec inp.connAfter inp.avail req).2.2.2.2
        rw [heq]
        exact ⟨hb2, fun _ => hb⟩
      · -- receiving body
        exact bodyDrain_capacity inp.connAfter inp.avail req hb
      · exact ⟨hb2, fun _ => hb⟩

theorem allocSlotAux_none :
    ∀ (rs : List AsyncHTTPRequest) (i : Nat),
    (∀ r ∈ rs, r.active = true) → allocSlotAux rs i = none := by
  intro rs
  induction rs with
  | nil => intro i _; rfl
  | cons r rest ih =>
    intro i h
    simp only [allocSlotAux, h r (by simp), if_true]
    exact ih (i + 1) (fun q hq => h q (by simp [hq]))

theorem toLowerChar_idem (c : Char) :
    toLowerChar (toLowerChar c) = toLowerChar c := by
  by_cases h : 65 ≤ c.toNat ∧ c.toNat ≤ 90
  · have hv : (Char.ofNat (c.toNat + 32)).toNat = c.toNat + 32 := by
      have h32 : c.toNat + 32 < 55296 := by omega
      unfold Char.ofNat
      rw [dif_pos (show Nat.isValidChar (c.toNat + 32) from Or.inl h32)]
      rfl
    have hd2 : toLowerChar c = Char.ofNat (c.toNat + 32) := by
      rw [toLowerChar, if_pos h]
    conv_lhs => rw [toLowerChar]
    rw [if_neg (by rw [hd2, hv]; omega)]
  · have hd2 : toLowerChar c = c := by
      rw [toLowerChar, if_neg h]
    rw [hd2, hd2]

theorem eqIgnoreCase_map_lower :
    ∀ (a n : List Char), eqIgnoreCase a (n.map toLowerChar) = eqIgnoreCase a n := by
  intro a
  induction a with
  | nil =>
    intro n
    cases n with
    | nil => rfl
    | cons x xs => rfl
  | cons b bs ih =>
    intro n
    cases n with
    | nil => rfl
    | cons x xs =>
      simp only [List.map_cons, eqIgnoreCase, toLowerChar_idem, ih]

theorem headerLookupAux_map_lower (hs : List (List Char × List Char))
    (n : List Char) :
    headerLookupAux hs (n.map toLowerChar) = headerLookupAux hs n := by
  induction hs with
  | nil => rfl
  | cons p rest ih =>
    simp only [headerLookupAux, eqIgnoreCase_map_lower, ih]

-- ===========================================================================
-- Claim theorems
-- ===========================================================================

/-- C1: per request lifetime of a slot, at most one terminal outcome is
dispatched: over any sequence of pump cycles and aborts a slot fires at
most one callback; a pump cycle that moves the slot to a terminal state
fires exactly one of the response/error callbacks (when both are
registered); an abort fires no callback, and nothing fires after it. -/
theorem terminal_outcome_unique (req : AsyncHTTPRequest) (ops : List SlotOp) :
    (runOps req ops).2.length ≤ 1
    ∧ (∀ inp : CycleInput, req.hasResponseCb = true → req.hasErrorCb = true →
        (req.state = AsyncHTTPState.connecting ∨ req.state = AsyncHTTPState.sending
         ∨ req.state = AsyncHTTPState.receivingHeaders
         ∨ req.state = AsyncHTTPState.receivingBody) →
        ((processSlot req inp).req.state = AsyncHTTPState.complete
         ∨ (processSlot req inp).req.state = AsyncHTTPState.error) →
        (processSlot req inp).events.length = 1)
    ∧ (abortStep req).2 = []
    ∧ (∀ ops2 : List SlotOp, (runOps (abortStep req).1 ops2).2 = []) :=
  ⟨runOps_le_one ops req,
   fun inp hcb hecb hst hterm =>
     processSlot_terminal_events req inp hcb hecb hst hterm,
   rfl,
   fun ops2 => runOps_inactive ops2 _ (abortStep_inactive req)⟩

/-- Witness for C1 at a concrete slot one byte away from completion. -/
theorem terminal_outcome_unique_witness :
    (runOps exBodyReq []).2.length ≤ 1
    ∧ (processSlot exBodyReq (exCInp (("ab").toList) true 0)).events.length = 1
    ∧ (abortStep exBodyReq).2 = []
    ∧ (runOps (abortStep exBodyReq).1 [SlotOp.pump (exCInp [] true 0)]).2 = [] := by
  have h := terminal_outcome_unique exBodyReq []
  exact ⟨h.1,
    h.2.1 (exCInp (("ab").toList) true 0) (by decide) (by decide)
      (by decide) (Or.inl (by decide)),
    h.2.2.1, h.2.2.2 [SlotOp.pump (exCInp [] true 0)]⟩

/-- C2 counterexample: a request submitted to a fresh pool and pumped to
completion ends with `active = false` while its state is `complete`, not
`idle`; the claimed equivalence "active iff state is not idle" is false. -/
theorem active_iff_nonidle_ctrex :
    exCxSlot.active = false ∧ exCxSlot.state = AsyncHTTPState.complete
    ∧ ¬ (exCxSlot.active = true ↔ exCxSlot.state ≠ AsyncHTTPState.idle) := by
  refine ⟨by decide, by decide, ?_⟩
  decide

/-- C2 (amended): an active slot's state is never idle (the forward
implication), dispatching a terminal outcome clears the active flag and
leaves the state at complete or error (not idle), and an abort resets the
slot to inactive and idle.  The reverse implication of the original claim
fails: a finished slot is inactive with state complete or error. -/
theorem active_implies_nonidle (req : AsyncHTTPRequest) (inp : CycleInput)
    (h : req.active = true → req.state ≠ AsyncHTTPState.idle) :
    ((slotCycle req inp).req.active = true →
      (slotCycle req inp).req.state ≠ AsyncHTTPState.idle)
    ∧ ((processSlot req inp).events ≠ [] →
        (processSlot req inp).req.active = false
        ∧ ((processSlot req inp).req.state = AsyncHTTPState.complete
           ∨ (processSlot req inp).req.state = AsyncHTTPState.error))
    ∧ ((abortStep req).1.active = false
       ∧ (abortStep req).1.state = AsyncHTTPState.idle) := by
  refine ⟨?_, (processSlot_spec req inp).2.1, rfl, rfl⟩
  intro ha hidle
  by_cases hact : req.active = true
  · simp only [slotCycle, hact, if_true] at ha hidle
    exact h ((processSlot_spec req inp).2.2.1 ha)
      ((processSlot_spec req inp).2.2.2 hidle)
  · have h0 : req.active = false := by simpa using hact
    simp only [slotCycle, h0, Bool.false_eq_true, if_false] at ha

/-- Witness for the amended C2 at a concrete active receiving-body slot. -/
theorem active_implies_nonidle_witness :
    ((slotCycle exBodyReq (exCInp [] true 0)).req.active = true →
      (slotCycle exBodyReq (exCInp [] true 0)).req.state ≠ AsyncHTTPState.idle)
    ∧ ((abortStep exBodyReq).1.active = false
       ∧ (abortStep exBodyReq).1.state = AsyncHTTPState.idle) :=
  ⟨(active_implies_nonidle exBodyReq (exCInp [] true 0) (by decide)).1,
   (active_implies_nonidle exBodyReq (exCInp [] true 0) (by decide)).2.2⟩

/-- C3: submitting while every slot is active returns the PoolFull error
code, leaves the pool (every slot's fields) unchanged, and reports the
error only through the globally-registered error handler when one is
registered — no per-request callback fires. -/
theorem pool_full_no_mutation (http : AsyncHTTP) (method : AsyncHTTPMethod)
    (url body contentType : List Char) (cb : Bool) (now : Nat)
    (h : ∀ r ∈ http.requests, r.active = true) :
    http.request method url body contentType cb now =
      (http, ASYNC_HTTP_ERR_POOL_FULL,
       if http.hasGlobalErrorCb then
         [HTTPEvent.errorEvt ASYNC_HTTP_ERR_POOL_FULL ("Request pool full")]
       else []) := by
  unfold AsyncHTTP.request
  rw [show http.allocSlot = none from allocSlotAux_none http.requests 0 h]

/-- Witness for C3 on a pool of four active slots. -/
theorem pool_full_no_mutation_witness :
    exFullPool.request AsyncHTTPMethod.get (("http://h/").toList) [] [] true 0 =
      (exFullPool, ASYNC_HTTP_ERR_POOL_FULL,
       if exFullPool.hasGlobalErrorCb then
         [HTTPEvent.errorEvt ASYNC_HTTP_ERR_POOL_FULL ("Request pool full")]
       else []) :=
  pool_full_no_mutation exFullPool AsyncHTTPMethod.get (("http://h/").toList)
    [] [] true 0 (by decide)

/-- C4: with content-length framing (not chunked) and `k` bytes left to
count down, draining a cycle with more than `k` bytes available appends
exactly `k` bytes, drives the countdown to zero, and completes the request
successfully on the spot — the response callback fires and the remaining
available bytes are left unread in the still-open stream. -/
theorem content_length_countdown_completes (req : AsyncHTTPRequest)
    (inp : CycleInput) (k : Nat)
    (hcl : req.hasClient = true)
    (hst : req.state = AsyncHTTPState.receivingBody)
    (hch : req.chunked = false)
    (hto : elapsedMillis inp.now req.startTime ≤ req.timeoutMs)
    (hrb : req.remainingBytes = (k : Int)) (hk : 0 < k)
    (hcap : req.response.body.length + k ≤ ASYNC_HTTP_BODY_BUF_SIZE)
    (hcb : req.hasResponseCb = true)
    (hlen : k < inp.avail.length) :
    (processSlot req inp).events =
      [HTTPEvent.responseEvt { req.response with
        body := req.response.body ++ inp.avail.take k }]
    ∧ (processSlot req inp).req.state = AsyncHTTPState.complete
    ∧ (processSlot req inp).req.active = false
    ∧ (processSlot req inp).req.remainingBytes = 0
    ∧ (processSlot req inp).leftover = inp.avail.drop k
    ∧ (processSlot req inp).leftover ≠ [] := by
  rw [processSlot_body_eq req inp hcl hst hto]
  have h := bodyDrain_countdown inp.connAfter inp.avail req k hch hrb hk hcap hcb hlen
  refine ⟨h.1, h.2.1, h.2.2.1, h.2.2.2.1, h.2.2.2.2, ?_⟩
  rw [h.2.2.2.2]
  intro hd
  have hlen2 : (inp.avail.drop k).length = inp.avail.length - k :=
    List.length_drop k inp.avail
  rw [hd] at hlen2
  simp at hlen2
  omega

/-- Witness for C4: remaining count 1, two bytes available. -/
theorem content_length_countdown_completes_witness :
    (processSlot exBodyReq (exCInp (("ab").toList) true 0)).events =
      [HTTPEvent.responseEvt { exBodyReq.response with
        body := exBodyReq.response.body ++ (("ab").toList).take 1 }]
    ∧ (processSlot exBodyReq (exCInp (("ab").toList) true 0)).req.state
        = AsyncHTTPState.complete
    ∧ (processSlot exBodyReq (exCInp (("ab").toList) true 0)).leftover ≠ [] := by
  have h := content_length_countdown_completes exBodyReq
    (exCInp (("ab").toList) true 0) 1 (by decide) (by decide) (by decide)
    (by decide) (by decide) (by decide) (by decide) (by decide) (by decide)
  exact ⟨h.1, h.2.1, h.2.2.2.2.2⟩

/-- C5: in chunked mode the body bytes are accumulated raw during the
drain and rewritten by the chunk stripper only when the stream has closed;
the response callback then carries the stripped body.  In particular the
chunk stream `4\r\nWiki\r\n5\r\npedia\r\n0\r\n\r\n` strips to `Wikipedia`. -/
theorem chunked_strip_after_close :
    (∀ (req : AsyncHTTPRequest) (inp : CycleInput),
      req.hasClient = true → req.state = AsyncHTTPState.receivingBody →
      req.chunked = true → req.hasResponseCb = true →
      elapsedMillis inp.now req.startTime ≤ req.timeoutMs →
      inp.connAfter = false →
      req.response.body.length + inp.avail.length + 1 ≤ ASYNC_HTTP_BODY_BUF_SIZE →
      (processSlot req inp).events =
        [HTTPEvent.responseEvt { req.response with
          body := stripChunkedEncoding (req.response.body ++ inp.avail) }]
      ∧ (processSlot req inp).req.state = AsyncHTTPState.complete
      ∧ (processSlot req inp).leftover = [])
    ∧ stripChunkedEncoding (("4\r\nWiki\r\n5\r\npedia\r\n0\r\n\r\n").toList)
        = ("Wikipedia").toList := by
  constructor
  · intro req inp hcl hst hch hcb hto hca hcap
    rw [processSlot_body_eq req inp hcl hst hto, hca]
    have h := bodyDrain_chunked inp.avail req hch hcb hcap
    exact ⟨h.1, h.2.1, h.2.2.2⟩
  · decide

/-- Witness for C5: a chunked slot fed the example stream, then closed. -/
theorem chunked_strip_after_close_witness :
    (processSlot exChunkReq
      (exCInp (("4\r\nWiki\r\n5\r\npedia\r\n0\r\n\r\n").toList) false 0)).events =
      [HTTPEvent.responseEvt { exChunkReq.response with
        body := stripChunkedEncoding (exChunkReq.response.body
          ++ (("4\r\nWiki\r\n5\r\npedia\r\n0\r\n\r\n").toList)) }] := by
  exact (chunked_strip_after_close.1 exChunkReq
    (exCInp (("4\r\nWiki\r\n5\r\npedia\r\n0\r\n\r\n").toList) false 0)
    (by decide) (by decide) (by decide) (by decide) (by decide) (by decide)
    (by decide)).1

/-- C6: the response body never exceeds the fixed buffer capacity — one
pump cycle keeps the byte count at most 4096, and a still-active slot
stays strictly below capacity; moreover a receiving-body slot one byte
below capacity completes successfully (response callback, complete state)
on the next byte regardless of framing mode, leaving excess bytes
unread. -/
theorem body_capacity_truncation (req : AsyncHTTPRequest) (inp : CycleInput)
    (hb : req.response.body.length ≤ ASYNC_HTTP_BODY_BUF_SIZE - 1) :
    (processSlot req inp).req.response.body.length ≤ ASYNC_HTTP_BODY_BUF_SIZE
    ∧ ((processSlot req inp).req.active = true →
        (processSlot req inp).req.response.body.length
          ≤ ASYNC_HTTP_BODY_BUF_SIZE - 1)
    ∧ (∀ (c : Char) (rest : List Char),
        req.state = AsyncHTTPState.receivingBody → req.hasClient = true →
        req.hasResponseCb = true →
        elapsedMillis inp.now req.startTime ≤ req.timeoutMs →
        req.response.body.length = ASYNC_HTTP_BODY_BUF_SIZE - 1 →
        inp.avail = c :: rest →
        (processSlot req inp).events =
          [HTTPEvent.responseEvt { req.response with
            body := req.response.body ++ [c] }]
        ∧ (processSlot req inp).req.state = AsyncHTTPState.complete
        ∧ (processSlot req inp).leftover = rest) := by
  refine ⟨(processSlot_body_bound req inp hb).1,
    (processSlot_body_bound req inp hb).2, ?_⟩
  intro c rest hst hcl hcb hto hlen hav
  rw [processSlot_body_eq req inp hcl hst hto, hav]
  have h := bodyDrain_at_capacity inp.connAfter c rest req hcb hlen
  exact ⟨h.1, h.2.1, h.2.2.2⟩

/-- Witness for C6 at a slot whose body holds 4095 bytes. -/
theorem body_capacity_truncation_witness :
    (processSlot exCapReq (exCInp (("xy").toList) true 0)).req.response.body.length
      ≤ ASYNC_HTTP_BODY_BUF_SIZE
    ∧ (processSlot exCapReq (exCInp (("xy").toList) true 0)).req.state
        = AsyncHTTPState.complete := by
  have hbl : exCapReq.response.body.length = ASYNC_HTTP_BODY_BUF_SIZE - 1 := by
    show (List.replicate 4095 'a').length = ASYNC_HTTP_BODY_BUF_SIZE - 1
    rw [List.length_replicate]
    rfl
  have h := body_capacity_truncation exCapReq (exCInp (("xy").toList) true 0)
    (le_of_eq hbl)
  refine ⟨h.1, ?_⟩
  exact (h.2.2 'x' (("y").toList) (by decide) (by decide) (by decide)
    (by decide) hbl (by decide)).2.1

/-- C7: on a pump cycle in any non-terminal, non-idle state, once the
elapsed time since the request's start exceeds its timeout the slot
finishes with the Timeout error code on that cycle, preempting the state's
own logic: the state becomes error, the active flag clears, the stream is
stopped and detached, and the error callback (when registered) fires with
code -4. -/
theorem timeout_preempts_state (req : AsyncHTTPRequest) (inp : CycleInput)
    (hcl : req.hasClient = true)
    (hst : req.state = AsyncHTTPState.connecting ∨ req.state = AsyncHTTPState.sending
      ∨ req.state = AsyncHTTPState.receivingHeaders
      ∨ req.state = AsyncHTTPState.receivingBody)
    (hel : elapsedMillis inp.now req.startTime > req.timeoutMs) :
    (processSlot req inp).req.state = AsyncHTTPState.error
    ∧ (processSlot req inp).req.active = false
    ∧ (processSlot req inp).req.hasClient = false
    ∧ (processSlot req inp).events =
        (if req.hasErrorCb then
          [HTTPEvent.errorEvt ASYNC_HTTP_ERR_TIMEOUT ("Request timed out")]
         else []) := by
  have hcond : (req.state ≠ AsyncHTTPState.complete
      ∧ req.state ≠ AsyncHTTPState.error
      ∧ req.state ≠ AsyncHTTPState.idle)
      ∧ elapsedMillis inp.now req.startTime > req.timeoutMs := by
    refine ⟨?_, hel⟩
    rcases hst with h | h | h | h <;> simp [h]
  unfold processSlot
  rw [if_neg (by simp [hcl]), if_pos hcond]
  simp [finishWithError]

/-- Witness for C7: a connecting slot pumped 20 seconds after start. -/
theorem timeout_preempts_state_witness :
    (processSlot exConnReq exLateInp).req.state = AsyncHTTPState.error
    ∧ (processSlot exConnReq exLateInp).events =
        (if exConnReq.hasErrorCb then
          [HTTPEvent.errorEvt ASYNC_HTTP_ERR_TIMEOUT ("Request timed out")]
         else []) := by
  have h := timeout_preempts_state exConnReq exLateInp
    (by decide) (Or.inl (by decide)) (by decide)
  exact ⟨h.1, h.2.2.2⟩

/-- C8: in the sending state the framing block and body are written in one
attempt per pump cycle; a total of zero bytes written finishes the request
with the SendFailure error code, while any non-zero count frees the
framing and body buffers and advances the state to receiving-headers
without firing a callback. -/
theorem sending_state_step (req : AsyncHTTPRequest) (inp : CycleInput)
    (hcl : req.hasClient = true) (hst : req.state = AsyncHTTPState.sending)
    (hto : elapsedMillis inp.now req.startTime ≤ req.timeoutMs) :
    (inp.written = 0 →
      (processSlot req inp).req.state = AsyncHTTPState.error
      ∧ (processSlot req inp).req.active = false
      ∧ (processSlot req inp).events =
          (if req.hasErrorCb then
            [HTTPEvent.errorEvt ASYNC_HTTP_ERR_SEND_FAIL ("Send failed")]
           else []))
    ∧ (inp.written ≠ 0 →
      (processSlot req inp).req =
        { req with requestHeaders := [], requestBody := [],
                   state := AsyncHTTPState.receivingHeaders }
      ∧ (processSlot req inp).events = []
      ∧ (processSlot req inp).leftover = inp.avail) := by
  unfold processSlot
  rw [if_neg (by simp [hcl]), if_neg (fun h => Nat.not_lt.mpr hto h.2)]
  simp only [hst]
  constructor
  · intro hw
    rw [if_pos hw]
    simp [finishWithError]
  · intro hw
    rw [if_neg hw]
    exact ⟨rfl, rfl, rfl⟩

/-- Witness for C8: the same sending slot with a zero and a nonzero
write. -/
theorem sending_state_step_witness :
    (processSlot exSendReq (exCInp [] true 0)).req.state = AsyncHTTPState.error
    ∧ (processSlot exSendReq (exCInp [] true 9)).req =
        { exSendReq with requestHeaders := [], requestBody := [],
                         state := AsyncHTTPState.receivingHeaders } := by
  have h0 := sending_state_step exSendReq (exCInp [] true 0)
    (by decide) (by decide) (by decide)
  have h1 := sending_state_step exSendReq (exCInp [] true 9)
    (by decide) (by decide) (by decide)
  exact ⟨(h0.1 (by decide)).1, (h1.2 (by decide)).1⟩

/-- C9: response-header lookup is case-insensitive — folding the queried
name to lower case, or replacing it by any name equal ignoring case, does
not change the result — and with duplicate stored names the value of the
first matching pair is returned. -/
theorem header_lookup_case_insensitive_first_match :
    (∀ (r : AsyncHTTPResponse) (n : List Char),
      r.header (n.map toLowerChar) = r.header n)
    ∧ (∀ (r : AsyncHTTPResponse) (n n' : List Char),
      eqIgnoreCase n n' = true → r.header n = r.header n')
    ∧ (∀ (r : AsyncHTTPResponse) (pre post : List (List Char × List Char))
        (nm v n : List Char),
      r.headers = pre ++ (nm, v) :: post →
      (∀ p ∈ pre, eqIgnoreCase p.1 n = false) →
      eqIgnoreCase nm n = true →
      r.header n = v) := by
  refine ⟨?_, ?_, ?_⟩
  · intro r n
    exact headerLookupAux_map_lower r.headers n
  · intro r n n' h
    exact headerLookupAux_congr r.headers n n' h
  · intro r pre post nm v n hh hpre hm
    unfold AsyncHTTPResponse.header
    rw [hh]
    exact headerLookupAux_first pre nm v post n hpre hm

/-- Witness for C9 on a response holding `Content-TYPE: a` before
`content-type: b`. -/
theorem header_lookup_case_insensitive_first_match_witness :
    exResp.header ((("Content-Type").toList).map toLowerChar)
      = exResp.header (("Content-Type").toList)
    ∧ exResp.header (("CONTENT-TYPE").toList)
      = exResp.header (("content-type").toList)
    ∧ exResp.header (("content-type").toList) = (("a").toList) := by
  refine ⟨header_lookup_case_insensitive_first_match.1 exResp _,
    header_lookup_case_insensitive_first_match.2.1 exResp _ _ (by decide), ?_⟩
  exact header_lookup_case_insensitive_first_match.2.2 exResp
    [((("X-A").toList), (("1").toList))]
    [((("content-type").toList), (("b").toList))]
    (("Content-TYPE").toList) (("a").toList) (("content-type").toList)
    (by decide) (by decide) (by decide)

/-- C10: when the accumulated chunked body ends mid-chunk — the declared
hex size exceeds the bytes that follow the size line — the stripper emits
the partial chunk data clamped to the end of the buffer instead of
discarding it. -/
theorem chunk_clamp_partial_data (sizeLine data : List Char) (n : Nat)
    (hfind : findSub (sizeLine ++ '\r' :: '\n' :: data) ['\r', '\n'] 0
      = some sizeLine.length)
    (hsize : strtolHex (trimChars sizeLine) = (n : Int))
    (hn : 0 < n) (hlen : data.length < n) :
    stripChunkedEncoding (sizeLine ++ '\r' :: '\n' :: data) = data := by
  have hlen2 : (sizeLine ++ '\r' :: '\n' :: data).length
      = sizeLine.length + 2 + data.length := by
    simp
    omega
  unfold stripChunkedEncoding
  rw [hlen2]
  simp only [stripLoopF]
  rw [if_pos (by omega)]
  simp only [hfind]
  have htake : (List.drop 0 (sizeLine ++ '\r' :: '\n' :: data)).take (sizeLine.length - 0)
      = sizeLine := by
    simp only [List.drop_zero, Nat.sub_zero]
    exact List.take_left sizeLine _
  rw [htake, hsize]
  rw [if_neg (by exact_mod_cast Nat.not_le.mpr hn)]
  have htn : ((n : Int)).toNat = n := Int.toNat_natCast n
  rw [htn]
  have hmin : min (sizeLine.length + 2 + n) (sizeLine.length + 2 + data.length)
      = sizeLine.length + 2 + data.length := by omega
  rw [hlen2, hmin]
  have hdrop : (sizeLine ++ '\r' :: '\n' :: data).drop (sizeLine.length + 2) = data := by
    rw [show sizeLine ++ '\r' :: '\n' :: data = (sizeLine ++ ['\r', '\n']) ++ data by simp,
        show sizeLine.length + 2 = (sizeLine ++ ['\r', '\n']).length by simp]
    exact List.drop_left _ _
  rw [hdrop]
  rw [show sizeLine.length + 2 + data.length - (sizeLine.length + 2) = data.length by omega]
  rw [List.take_length, List.nil_append]
  exact stripLoopF_done _ _ _ _ (by omega)

/-- Witness for C10: a declared size of 5 with only two data bytes. -/
theorem chunk_clamp_partial_data_witness :
    stripChunkedEncoding ((("5").toList) ++ '\r' :: '\n' :: (("ab").toList))
      = ("ab").toList :=
  chunk_clamp_partial_data (("5").toList) (("ab").toList) 5
    (by decide) (by decide) (by decide) (by decide)
